import Mathlib

/-!
Verification development for the ReverseProxy repository.

Shallow embedding of the Go sources into Lean 4.  Conventions used throughout:

* Go machine integers are modelled as `Int` (no arithmetic near overflow occurs
  in the embedded code paths).
* Go strings are modelled as Lean `String`; where Go indexes bytes of a header
  value the value is modelled through its character list, which coincides with
  byte indexing for the ASCII header values at issue.
* Fallible operations return `Option`/`Except`; a Go runtime panic
  (nil-pointer dereference, index out of range) is modelled by `none`.
* The operating system (`os.Stat`, file reads) and the Go standard library
  (`time.Parse`, `regexp`) are external to the repository and enter the
  embedding as explicit function parameters, or as executable functions giving
  their documented semantics on the inputs the claims exercise.
-/

namespace ReverseProxy

/-! ### LRU cache (src/filehandler.go lines 630-788, the `lruCache` that the
claims cite: `Add` at 678-721, `Remove` at 749-787)

The doubly linked `head`/`tail` list plus `keyValMap` of the Go code is
modelled as a single Lean list of `(key, size)` pairs ordered most recently
used first; `CacheItem` values are represented by the result of their `Size()`
method, which is all the cache ever reads from them.  `Remove`'s pointer
surgery (head / tail / middle cases) amounts to deleting the node of the key,
and `Add`'s head insertion to consing at the front. -/

def ErrorExceedsMaxSize : String := "Exceeds max size, can't store"

structure LruCache where
  entries : List (String × Int)
  maxSize : Int
  curSize : Int
deriving Repr, DecidableEq

/-- `CreateLRUCache` (src/filehandler.go lines 674-676): empty map, `curSize`
starts at zero. -/
def CreateLRUCache (maxsize : Int) : LruCache :=
  { entries := [], maxSize := maxsize, curSize := 0 }

/-- `lruCache.Remove` (src/filehandler.go lines 749-787): if the key is
present, delete it from the map, subtract the item's size from `curSize`, and
unlink its node from the list; otherwise do nothing. -/
def LruCache.Remove (this : LruCache) (key : String) : LruCache :=
  match this.entries.find? (fun e => e.1 == key) with
  | none => this
  | some e =>
      { this with
        entries := this.entries.eraseP (fun e2 => e2.1 == key)
        curSize := this.curSize - e.2 }

/-- The eviction loop of `lruCache.Add` (src/filehandler.go lines 694-706):
`for this.curSize + v.Size() > this.maxSize` delete the tail entry from the
map, subtract its size from `curSize`, and unlink it.  The list is passed
reversed (tail first).  `none` models the nil dereference of `this.tail.key`
when the loop runs with an empty list. -/
def lruEvictLoop (vSize maxSize : Int) : Int → List (String × Int) → Option (Int × List (String × Int))
  | curSize, [] =>
      if curSize + vSize > maxSize then none else some (curSize, [])
  | curSize, t :: rest =>
      if curSize + vSize > maxSize then
        lruEvictLoop vSize maxSize (curSize - t.2) rest
      else
        some (curSize, t :: rest)

/-- `lruCache.Add` (src/filehandler.go lines 678-721).  Faithful to the
source: it first calls `this.Remove(k)`, then returns the "exceeds max size"
error if `v.Size() > maxSize` (the removal is not undone), then runs the
eviction loop, inserts the new item at the head of the list and into the map,
and returns nil.  The source contains no statement adding `v.Size()` to
`this.curSize` after the insertion, so `curSize` is left as the eviction loop
left it. -/
def LruCache.Add (this : LruCache) (k : String) (vSize : Int) : Option (Except String Unit × LruCache) :=
  let s1 := this.Remove k
  if vSize > s1.maxSize then
    some (.error ErrorExceedsMaxSize, s1)
  else
    match lruEvictLoop vSize s1.maxSize s1.curSize s1.entries.reverse with
    | none => none
    | some (cur2, rev2) =>
        some (.ok (),
          { entries := (k, vSize) :: rev2.reverse
            maxSize := s1.maxSize
            curSize := cur2 })

/-- Sum of the `Size()` values of the entries currently stored in the cache. -/
def LruCache.entriesSizeSum (this : LruCache) : Int :=
  (this.entries.map (fun e => e.2)).sum

/-! ### Filesystem loader (src/unnamed/part_002: `FileSystemLoader.GetFile`
lines 73-92, `LocateFile` lines 94-117, `FindFileByAppending` lines 147-159)

`os.Stat` is modelled by a parameter `fs : String → Bool` telling whether the
stat succeeds for a path (the loader only uses the returned `FileInfo` as an
existence token and, later, for its name/mtime, which the C6 claim does not
touch), and `ioutil.ReadFile` by `readFile : String → Except String (List Nat)`
returning the byte content or the propagated error.  The MIME /
compression-gating fields of `FileContent` are not part of the C6 claim and
are not carried here. -/

structure FileSystemDefaults where
  DefaultFiles : List String
  DefaultExtensions : List String
deriving Repr

structure ServerResource where
  Path : String
  FSDefaults : FileSystemDefaults
deriving Repr

/-- `FileSystemLoader.FindFileByAppending`: run through the slice appending
each suffix to the path, returning the first full path whose `os.Stat`
succeeds, or nothing. -/
def FileSystemLoader.FindFileByAppending (fs : String → Bool) (filePath : String) :
    List String → Option String
  | [] => none
  | suffix :: rest =>
      if fs (filePath ++ suffix) then some (filePath ++ suffix)
      else FileSystemLoader.FindFileByAppending fs filePath rest

/-- `FileSystemLoader.LocateFile`: concatenate `res.Path ++ requestPath`; if
the request path ends in `/` try the default files, else if it contains no `.`
try the default extensions, else stat the concatenated path verbatim.  The
source returns `(nil, requestPath)` when nothing is found, modelled as
`none`. -/
def FileSystemLoader.LocateFile (fs : String → Bool) (requestPath : String)
    (res : ServerResource) : Option String :=
  let filePath := res.Path ++ requestPath
  if requestPath.endsWith "/" then
    FileSystemLoader.FindFileByAppending fs filePath res.FSDefaults.DefaultFiles
  else if !(requestPath.contains '.') then
    FileSystemLoader.FindFileByAppending fs filePath res.FSDefaults.DefaultExtensions
  else if fs filePath then some filePath
  else none

/-- `FileSystemLoader.GetFile`: locate the file, read it (propagating read
errors), and return the absolute path and data; when `LocateFile` found
nothing, return the "Unable to locate file" error. -/
def FileSystemLoader.GetFile (fs : String → Bool)
    (readFile : String → Except String (List Nat)) (requestPath : String)
    (res : ServerResource) : Except String (String × List Nat) :=
  match FileSystemLoader.LocateFile fs requestPath res with
  | some absolutePath =>
      match readFile absolutePath with
      | .ok data => .ok (absolutePath, data)
      | .error e => .error e
  | none => .error "Unable to locate file"

/-! ### Error mapping (src/cache_builder.go lines 221-232 `FSHandler.findErrorFile`,
src/server.go lines 139-152 `CreateRequestContext`)

A compiled `regexp.Regexp` is represented by the extension of its
`MatchString` method, a `String → Bool`.  For the two concrete patterns the
claims exercise, executable matchers giving the documented unanchored
substring semantics of Go regular expressions are provided below. -/

structure ErrorMapping where
  Pattern : String → Bool
  Path : String

/-- `FSHandler.findErrorFile`: format the status code as decimal text with
`strconv.Itoa` and run through the error mappings in slice order, returning
the first matching mapping's path, or the empty string. -/
def FSHandler.findErrorFile : List ErrorMapping → Nat → String
  | [], _ => ""
  | em :: rest, error =>
      if em.Pattern (toString error) then em.Path
      else FSHandler.findErrorFile rest error

/-- Whether `needle` occurs as a contiguous run inside `hay`. -/
def containsChars (needle : List Char) : List Char → Bool
  | [] => needle.isEmpty
  | c :: rest => needle.isPrefixOf (c :: rest) || containsChars needle rest

/-- `MatchString` semantics of the Go regular expression `"404"` (unanchored
literal): the string contains `404`. -/
def goMatchLiteral (pat : String) (s : String) : Bool :=
  containsChars pat.toList s.toList

/-- `MatchString` semantics of the Go regular expression `"40[0-9]"`
(unanchored): the string contains `40` followed by a decimal digit. -/
def goMatch40x (s : String) : Bool :=
  (List.range 10).any (fun d => containsChars ("40" ++ toString d).toList s.toList)

/-- Compiled-regex semantics for the error-map patterns the C7 claim
exercises; patterns outside the claim's inputs are irrelevant to the theorems
and map to the never-matching predicate. -/
def compileErrorMapPattern (p : String) : String → Bool :=
  if p = "40[0-9]" then goMatch40x
  else if p = "404" then goMatchLiteral "404"
  else fun _ => false

/-- The error-mapping construction of `CreateRequestContext` (src/server.go
lines 140-152): `for k, v := range resource.Error` compiles each pattern and
appends `ErrorMapping{Pattern, Path}` in range order.  `resource.Error` is a
Go `map[string]string`, and the Go specification leaves the `range` order of a
map unspecified (the runtime deliberately varies it), so the construction is a
function of `rangeOrder`, the sequence in which the runtime yields the map's
entries — an arbitrary permutation of those entries. -/
def createRequestContextErrorMappings (rangeOrder : List (String × String)) :
    List ErrorMapping :=
  rangeOrder.map (fun kv => { Pattern := compileErrorMapPattern kv.1, Path := kv.2 })

/-! ### Cache registry -/

/-- Modelled from the spec: the error-returning `CacheBuilder.CreateCache`
called by `NewFSHandler` (src/cache_builder.go line 122) and by
`TestCacheBuilder` (which demands a non-nil error for a zero-sized cache) is
not among the sources under src/ — only an older variant without the error
return value is.  Following spec §4.2: `limit ≤ 0` errors "zero sized cache";
an empty algorithm errors "strategy required"; an unknown algorithm errors
"unknown strategy"; an empty name yields a fresh unshared instance; a known
name returns the existing instance; a new name constructs, inserts and
returns.  Cache instances are represented by numeric identities so that
sharing is observable. -/
structure CacheRegistry where
  CacheMap : List (String × Nat)
  nextId : Nat
deriving Repr, DecidableEq

def CacheRegistry.CreateCache (this : CacheRegistry) (cacheName cacheType : String)
    (cacheLimit : Int) : Except String (Nat × CacheRegistry) :=
  if cacheLimit ≤ 0 then .error "zero sized cache"
  else if cacheType = "" then .error "strategy required"
  else if cacheType ≠ "lru" then .error "unknown strategy"
  else if cacheName = "" then
    .ok (this.nextId, { this with nextId := this.nextId + 1 })
  else
    match this.CacheMap.find? (fun e => e.1 == cacheName) with
    | some e => .ok (e.2, this)
    | none =>
        .ok (this.nextId,
          { CacheMap := (cacheName, this.nextId) :: this.CacheMap
            nextId := this.nextId + 1 })

/-! ### Cache-wrapping loader (src/loader_cache.go: `GetFile` lines 21-37,
`GetFileInCache` lines 40-65, `CheckFileInCache` lines 67-98)

The underlying `memcache.Cache` is an external library; for these claims only
its key→value map behaviour matters (`Get` returns the stored value for a
key, `Remove` deletes a key, `Add` stores under a key), so it is modelled as
an association list.  `FileContent` carries the fields the loader reads:
absolute path, mtime snapshot, the compression flags.  `os.Stat(...)ModTime()`
is the parameter `stat : String → Option Int` (`none` = stat error). -/

def CompressionSuffix : String := "gzip"

structure FileContent where
  AbsolutePath : String
  ModTime : Int
  Compression : Bool
  IgnoreCompression : Bool
deriving Repr, DecidableEq

abbrev UnderlyingCache := List (String × FileContent)

def cacheGet (cache : UnderlyingCache) (key : String) : Option FileContent :=
  (cache.find? (fun e => e.1 == key)).map (fun e => e.2)

def cacheRemove (cache : UnderlyingCache) (key : String) : UnderlyingCache :=
  cache.eraseP (fun e => e.1 == key)

def cacheAdd (cache : UnderlyingCache) (key : String) (val : FileContent) : UnderlyingCache :=
  (key, val) :: cacheRemove cache key

/-- `CacheFileLoader.CheckFileInCache`: with compression requested, consult
the compressed key `filePath ++ "gzip"` first; if absent consult the plain
key and accept that entry only when its `IgnoreCompression` flag is set.
Without compression, consult the plain key. -/
def CacheFileLoader.CheckFileInCache (cache : UnderlyingCache) (filePath : String)
    (compression : Bool) : Option FileContent :=
  if compression then
    match cacheGet cache (filePath ++ CompressionSuffix) with
    | some content => some content
    | none =>
        match cacheGet cache filePath with
        | some content =>
            if content.IgnoreCompression then some content else none
        | none => none
  else
    cacheGet cache filePath

/-- `CacheFileLoader.GetFileInCache`: on a hit, stat the entry's absolute
path; if the modification time equals the snapshot return the entry,
otherwise (or when the stat fails) call `UnderlyingCache.Remove(filePath)` —
the argument in the source is `filePath`, whichever key the hit was found
under — and report a miss.  Returns the result and the cache after the
call. -/
def CacheFileLoader.GetFileInCache (stat : String → Option Int)
    (cache : UnderlyingCache) (filePath : String) (compression : Bool) :
    Option FileContent × UnderlyingCache :=
  match CacheFileLoader.CheckFileInCache cache filePath compression with
  | some fileCacheItem =>
      match stat fileCacheItem.AbsolutePath with
      | some curModTime =>
          if fileCacheItem.ModTime == curModTime then
            (some fileCacheItem, cache)
          else
            (none, cacheRemove cache filePath)
      | none => (none, cacheRemove cache filePath)
  | none => (none, cache)

/-- `CacheFileLoader.GetFile`: try the cache; on a miss invoke the wrapped
retriever (`inner`), and on its success store the result under
`filePath ++ "gzip"` when the returned content is compressed, else under
`filePath`.  The third component records whether the inner loader was
invoked. -/
def CacheFileLoader.GetFile (stat : String → Option Int)
    (inner : String → Bool → Option FileContent) (cache : UnderlyingCache)
    (filePath : String) (compression : Bool) :
    Option FileContent × UnderlyingCache × Bool :=
  match CacheFileLoader.GetFileInCache stat cache filePath compression with
  | (some fc, cache2) => (some fc, cache2, false)
  | (none, cache2) =>
      match inner filePath compression with
      | some fc =>
          let key := if fc.Compression then filePath ++ CompressionSuffix else filePath
          (some fc, cacheAdd cache2 key fc, true)
      | none => (none, cache2, true)

/-! ### Filesystem handler (src/cache_builder.go: `HandleRequest` lines
138-150, `handleError` lines 155-171, `writeFile` lines 182-215,
`isModifiedSince` lines 249-277)

The handler's effect on the `http.ResponseWriter` and its control flow are
captured as a trace of events.  `time.Parse` is the parameter
`parse : GoTimeFormat → String → Option Int` (`none` = parse error; times in
nanoseconds), and the `Last-Modified` formatter
`ModTime().In(GMTLoc).Format(time.RFC1123)` is the parameter `format1123`.
`writeFile` and `handleError` are mutually recursive in the source with no
structural bound (a failing client write inside the error page re-enters
`handleError`), so the pair is embedded as a single function burning one unit
of fuel per call; with enough fuel the trace is the one the Go code
produces. -/

inductive GoTimeFormat
  | rfc1123
  | ansic
  | rfc850
deriving Repr, DecidableEq

/-- The format dispatch of `isModifiedSince` on `ms[3]`: `','` selects
RFC 1123, `' '` selects ANSI C, anything else RFC 850. -/
def formatFor (c : Char) : GoTimeFormat :=
  if c = ',' then .rfc1123 else if c = ' ' then .ansic else .rfc850

/-- `Time.Truncate(time.Second)` on a time in nanoseconds: round down to a
multiple of 10^9. -/
def goTruncateSecond (t : Int) : Int := t - t.emod 1000000000

/-- `isModifiedSince` (src/cache_builder.go lines 249-277): skip when the
header is absent or has no values; otherwise take the first value `ms`,
dispatch a parse on `ms[3]`, and return `false` exactly when the parse
succeeded and the file's mtime truncated to seconds equals the parsed time.
`none` models the index-out-of-range panic of `ms[3]` when the value is
shorter than 4 bytes — the source checks only that the header has at least
one value, not the value's length. -/
def isModifiedSince (parse : GoTimeFormat → String → Option Int)
    (ifModifiedSinceValues : List String) (modTime : Int) : Option Bool :=
  match ifModifiedSinceValues with
  | [] => some true
  | ms :: _ =>
      match ms.toList[3]? with
      | none => none
      | some c =>
          match parse (formatFor c) ms with
          | some parsedTime =>
              if goTruncateSecond modTime == parsedTime then some false else some true
          | none => some true

inductive FsEvent
  | setContentType
  | writeHeader (code : Nat)
  | setHeader (name value : String)
  | writeBody (ok : Bool)
  | enterHandleError (code : Nat)
  | panicIndex
deriving Repr, DecidableEq

structure GoRequest where
  path : String
  ifModifiedSince : List String
deriving Repr

/-- The fields of the loader's `FileContent` that `FSHandler.writeFile`
reads. -/
structure LoadedFile where
  AbsolutePath : String
  ModTime : Int
  Compression : Bool
deriving Repr

/-- The handler's collaborators: the Go standard library's `time.Parse` and
RFC 1123 formatter, the `FileAccessor.GetFile` chain keyed by request path and
compression flag (`none` = error return), the compiled error mappings, and
whether client writes succeed. -/
structure FsEnv where
  parse : GoTimeFormat → String → Option Int
  format1123 : Int → String
  getFile : String → Bool → Option LoadedFile
  errorMappings : List ErrorMapping
  writeOk : Bool

inductive FsCall
  | write (req : GoRequest) (content : LoadedFile)
  | herr (req : GoRequest) (error : Nat) (useCompression : Bool)

/-- The mutually recursive pair `FSHandler.writeFile` / `FSHandler.handleError`
(src/cache_builder.go lines 182-215 and 155-171) as one fuel-indexed function
producing the event trace.  `writeFile`: set Content-Type; if the file is not
modified since, write 304 and stop; else set the `Expires`, `Cache-Control`
and `Last-Modified` headers, set `Content-Encoding` for compressed content,
and write the body — a failed write calls `handleError(500, compression)`.
`handleError`: record entry, delete the `If-Modified-Since` header, look up an
error file; when one is mapped, point the request at it and load it, writing
the file on success and the bare status on load failure; with no mapping,
write the bare status. -/
def FSHandler.run (env : FsEnv) : Nat → FsCall → List FsEvent
  | 0, _ => []
  | fuel + 1, .write req content =>
      FsEvent.setContentType ::
        (match isModifiedSince env.parse req.ifModifiedSince content.ModTime with
        | none => [.panicIndex]
        | some false => [.writeHeader 304]
        | some true =>
            [FsEvent.setHeader "Expires" "-1",
             FsEvent.setHeader "Cache-Control" "must-revalidate, private",
             FsEvent.setHeader "Last-Modified" (env.format1123 content.ModTime)] ++
            (if content.Compression then [FsEvent.setHeader "Content-Encoding" "gzip"] else []) ++
            [FsEvent.writeBody env.writeOk] ++
            (if env.writeOk then []
             else FSHandler.run env fuel (.herr req 500 content.Compression)))
  | fuel + 1, .herr req error useCompression =>
      let req2 : GoRequest := { req with ifModifiedSince := [] }
      let errorFile := FSHandler.findErrorFile env.errorMappings error
      FsEvent.enterHandleError error ::
        (if errorFile ≠ "" then
          match env.getFile errorFile useCompression with
          | some fc => FSHandler.run env fuel (.write { req2 with path := errorFile } fc)
          | none => [.writeHeader error]
        else [.writeHeader error])

def FSHandler.writeFile (fuel : Nat) (env : FsEnv) (req : GoRequest) (content : LoadedFile) :
    List FsEvent :=
  FSHandler.run env fuel (.write req content)

def FSHandler.handleError (fuel : Nat) (env : FsEnv) (req : GoRequest) (error : Nat)
    (useCompression : Bool) : List FsEvent :=
  FSHandler.run env fuel (.herr req error useCompression)

/-- `FSHandler.HandleRequest` (src/cache_builder.go lines 138-150): load the
file for the request path; on success write it, on error enter the error path
with status 404.  `useCompression` is `shouldUseCompression`'s result, passed
in as a flag. -/
def FSHandler.HandleRequest (fuel : Nat) (env : FsEnv) (req : GoRequest)
    (useCompression : Bool) : List FsEvent :=
  match env.getFile req.path useCompression with
  | some fc => FSHandler.writeFile fuel env req fc
  | none => FSHandler.handleError fuel env req 404 useCompression

/-- Number of entries into `handleError` recorded in a trace. -/
def countHandleErrorEntries (trace : List FsEvent) : Nat :=
  (trace.filter (fun e => match e with | .enterHandleError _ => true | _ => false)).length

/-! ### HTTP socket body streaming (src/handler_http_socket.go:
`HttpHandler.writeBody` lines 88-109, `writeToResponse` lines 111-128,
`WrapperReader.Read` lines 144-155)

The upstream response body is an `io.ReadCloser`; it is modelled as the list
of bytes it has left to deliver, with the canonical in-memory `Read`
semantics (`goRead`): a zero-length destination reads nothing with no error,
an exhausted reader reports `io.EOF`, and otherwise up to `len(p)` bytes are
delivered with a nil error.  A read function returns
`(bytes read, reported n, err-is-EOF flag, new state)`; `none` models a
panic.  `writeToResponse` loops until a read returns `(0, err)`, writing
`buf[:r]` whenever `r > 0` (the source drops `w.Write`'s return values); it is
embedded with fuel, `none` meaning the loop has not terminated within the
fuel, and it returns the bytes delivered to the client and the final error
flag.  `BufferMax = 1024` is the buffer handed out by `getByteBuffer`. -/

def BufferMax : Nat := 1024

/-- Canonical `Read` of an in-memory byte stream: returns the bytes read, the
remaining stream and whether `io.EOF` was reported. -/
def goRead (bufSize : Nat) (s : List Nat) : List Nat × List Nat × Bool :=
  if bufSize = 0 then ([], s, false)
  else if s.isEmpty then ([], [], true)
  else (s.take bufSize, s.drop bufSize, false)

structure WrapperReader where
  B : Nat
  ByteRead : Bool
  Underlying : List Nat
deriving Repr, DecidableEq

/-- `WrapperReader.Read` (src/handler_http_socket.go lines 144-155): on the
first call place the saved byte at `p[0]`, fill `p[1:]` from the underlying
reader and report one more byte than the underlying read (panicking — `none`
— if `p` is empty); every later call delegates to the underlying reader
unchanged. -/
def WrapperReader.Read (pSize : Nat) (this : WrapperReader) :
    Option (List Nat × Nat × Bool × WrapperReader) :=
  if this.ByteRead then
    let r := goRead pSize this.Underlying
    some (r.1, r.1.length, r.2.2, { this with Underlying := r.2.1 })
  else if pSize = 0 then none
  else
    let r := goRead (pSize - 1) this.Underlying
    some (this.B :: r.1, r.1.length + 1, r.2.2, { B := this.B, ByteRead := true, Underlying := r.2.1 })

/-- A plain `resp.Body` used directly as the reader of `writeToResponse`. -/
def plainRead (bufSize : Nat) (s : List Nat) : Option (List Nat × Nat × Bool × List Nat) :=
  let r := goRead bufSize s
  some (r.1, r.1.length, r.2.2, r.2.1)

/-- `HttpHandler.writeToResponse` (src/handler_http_socket.go lines 111-128):
loop reading into the buffer; when `r = 0` return the error if there is one
(else keep looping — the commented throttle branch), and when `r > 0` write
`buf[:r]` to the client and continue. -/
def writeToResponse {σ : Type} (read : Nat → σ → Option (List Nat × Nat × Bool × σ)) :
    Nat → Nat → σ → Option (List Nat × Bool)
  | 0, _, _ => none
  | fuel + 1, bufSize, st =>
      match read bufSize st with
      | none => none
      | some (bs, r, eof, st2) =>
          if r = 0 then
            if eof then some ([], true)
            else writeToResponse read fuel bufSize st2
          else
            match writeToResponse read fuel bufSize st2 with
            | none => none
            | some (out, e) => some (bs ++ out, e)

/-- `HttpHandler.writeBody` (src/handler_http_socket.go lines 88-109): when
the upstream `Content-Length ≤ 0`, first read a single byte; if that read
errors, return the error having written nothing; otherwise stream through a
`WrapperReader` seeded with the byte just read.  With a positive
content length, stream the body directly.  Returns the bytes delivered and
the error flag of the terminated loop. -/
def HttpHandler.writeBody (fuel : Nat) (contentLength : Int) (body : List Nat) :
    Option (List Nat × Bool) :=
  if contentLength ≤ 0 then
    let first := goRead 1 body
    if first.2.2 then some ([], true)
    else
      match first.1 with
      | b :: _ =>
          writeToResponse WrapperReader.Read fuel BufferMax
            { B := b, ByteRead := false, Underlying := first.2.1 }
      | [] => none
  else
    writeToResponse plainRead fuel BufferMax body

/-! ### Concrete instances used to evaluate the definitions -/

/-- A filesystem in which every stat reports modification time 2. -/
def mtimeTwoStat : String → Option Int := fun _ => some 2

/-- A compressed cache entry whose mtime snapshot (1) is older than the
filesystem's (2). -/
def staleCompressed : FileContent :=
  { AbsolutePath := "abs", ModTime := 1, Compression := true, IgnoreCompression := false }

/-- The fresh content an inner loader would produce for the same file. -/
def freshCompressed : FileContent :=
  { AbsolutePath := "abs", ModTime := 2, Compression := true, IgnoreCompression := false }

/-- An inner loader that always succeeds with `freshCompressed`. -/
def innerFresh : String → Bool → Option FileContent := fun _ _ => some freshCompressed

/-- A filesystem containing exactly `/root/index.html`. -/
def indexOnlyFs : String → Bool := fun p => p == "/root/index.html"

/-- A reader that returns empty content for every path. -/
def readAllOk : String → Except String (List Nat) := fun _ => .ok []

/-- A `file_system` resource with root `/root` and the defaults of the
repository's test configuration. -/
def demoResource : ServerResource :=
  { Path := "/root"
    FSDefaults :=
      { DefaultFiles := ["index.html", "hello.html"]
        DefaultExtensions := [".html", ".css"] } }

/-- Handler environment in which the request's file is missing, error pages
for 404 and 500 are mapped and load fine, and every client write fails. -/
def c3Env : FsEnv :=
  { parse := fun _ _ => none
    format1123 := fun _ => "LM"
    getFile := fun p _ =>
      if p = "/404.txt" then
        some { AbsolutePath := "/root/404.txt", ModTime := 0, Compression := false }
      else if p = "/500.txt" then
        some { AbsolutePath := "/root/500.txt", ModTime := 0, Compression := false }
      else none
    errorMappings :=
      [{ Pattern := goMatchLiteral "404", Path := "/404.txt" },
       { Pattern := goMatchLiteral "500", Path := "/500.txt" }]
    writeOk := false }

def c3Req : GoRequest := { path := "/missing.html", ifModifiedSince := [] }

/-- Handler environment whose `time.Parse` accepts everything as the epoch
and whose client writes succeed. -/
def epochParseEnv : FsEnv :=
  { parse := fun _ _ => some 0
    format1123 := fun _ => "Thu, 01 Jan 1970 00:00:00 GMT"
    getFile := fun _ _ => none
    errorMappings := []
    writeOk := true }

def rfc1123Req : GoRequest :=
  { path := "/a.html", ifModifiedSince := ["Sun, 06 Nov 1994 08:49:37 GMT"] }

def epochFile : LoadedFile :=
  { AbsolutePath := "/root/a.html", ModTime := 0, Compression := false }

def shortHeaderReq : GoRequest := { path := "/a.html", ifModifiedSince := ["abc"] }

/-! ## Theorems -/

/-- `Remove` never touches `maxSize`. -/
theorem LruCache.Remove_maxSize (s : LruCache) (k : String) :
    (s.Remove k).maxSize = s.maxSize := by
  unfold LruCache.Remove
  split <;> rfl

/-- C1: the claim states that after every completed `Add`/`Get`/`Remove` the
sum of the stored entries' sizes equals the tracked `curSize`.  The source's
`Add` (src/filehandler.go lines 678-721) contains no statement adding the new
item's size to `curSize`, so already after the single operation
`Add("a", item of size 5)` on `CreateLRUCache(10)` the cache stores one entry
of size 5 while `curSize` is still 0: the invariant fails at the first
successful insertion. -/
theorem c1_add_leaves_curSize_untracked :
    (CreateLRUCache 10).Add "a" 5
      = some (Except.ok (), { entries := [("a", 5)], maxSize := 10, curSize := 0 })
    ∧ LruCache.entriesSizeSum { entries := [("a", 5)], maxSize := 10, curSize := 0 } = 5
    ∧ ({ entries := [("a", 5)], maxSize := 10, curSize := 0 } : LruCache).curSize
        ≠ LruCache.entriesSizeSum { entries := [("a", 5)], maxSize := 10, curSize := 0 } :=
  ⟨by rfl, by rfl, by decide⟩

/-- C2 counterexample: the claim asserts that an oversized `Add` leaves the
cache state exactly as it was, including when the key is already present.
Starting from the state the code itself reaches after `Add("a", size 5)` on
`CreateLRUCache(10)`, the call `Add("a", size 11)` returns the "exceeds max
size" error but has already executed `Remove("a")`: the entry is gone and
`curSize` dropped to -5, so the state is not the one before the call. -/
theorem c2_oversized_add_mutates_cex :
    LruCache.Add { entries := [("a", 5)], maxSize := 10, curSize := 0 } "a" 11
      = some (Except.error ErrorExceedsMaxSize, { entries := [], maxSize := 10, curSize := -5 })
    ∧ ({ entries := [], maxSize := 10, curSize := -5 } : LruCache)
        ≠ { entries := [("a", 5)], maxSize := 10, curSize := 0 } :=
  ⟨by rfl, by decide⟩

/-- C2 (amended): `Add(k, v)` with `v.Size() > maxSize` returns the "exceeds
max size" error, and the state after the call is `Remove(k)` of the state
before it — unchanged exactly when `k` was not present, with `k`'s entry
already removed when it was. -/
theorem c2_oversized_add_errors_after_remove (k : String) (v : Int) (s : LruCache)
    (h : v > s.maxSize) :
    s.Add k v = some (Except.error ErrorExceedsMaxSize, s.Remove k)
    ∧ (s.entries.find? (fun e => e.1 == k) = none → s.Remove k = s) := by
  constructor
  · unfold LruCache.Add
    rw [if_pos (by rw [LruCache.Remove_maxSize]; exact h)]
  · intro h0
    unfold LruCache.Remove
    rw [h0]

/-- C2 witness: the amended theorem applied at `Add("a", size 11)` on a fresh
cache with limit 10. -/
theorem c2_oversized_add_errors_after_remove_witness :
    (11 : Int) > (CreateLRUCache 10).maxSize
    ∧ ((CreateLRUCache 10).Add "a" 11
          = some (Except.error ErrorExceedsMaxSize, (CreateLRUCache 10).Remove "a")
        ∧ ((CreateLRUCache 10).entries.find? (fun e => e.1 == "a") = none →
            (CreateLRUCache 10).Remove "a" = CreateLRUCache 10)) :=
  ⟨by decide, c2_oversized_add_errors_after_remove "a" 11 (CreateLRUCache 10) (by decide)⟩

/-- C5: the claim states that a found-but-stale cache entry is removed from
the underlying cache.  With the hit found under the compressed key
`"p" ++ "gzip"` and a modification-time mismatch (snapshot 1 vs filesystem 2),
`GetFileInCache` calls `Remove("p")` — the plain key — so the cache after the
call still contains the stale entry, unchanged; the inner loader is then
invoked by `GetFile` (third component `true`). -/
theorem c5_stale_compressed_entry_survives_removal :
    CacheFileLoader.CheckFileInCache [("pgzip", staleCompressed)] "p" true
      = some staleCompressed
    ∧ mtimeTwoStat staleCompressed.AbsolutePath = some 2
    ∧ staleCompressed.ModTime ≠ 2
    ∧ CacheFileLoader.GetFileInCache mtimeTwoStat [("pgzip", staleCompressed)] "p" true
        = (none, [("pgzip", staleCompressed)])
    ∧ (CacheFileLoader.GetFile mtimeTwoStat innerFresh
        [("pgzip", staleCompressed)] "p" true).2.2 = true :=
  ⟨by rfl, by rfl, by decide, by rfl, by rfl⟩

/-- C7: the claim asserts the error-rule iteration order is deterministic and
identical across runs, with `[("40[0-9]", p1), ("404", p2)]` selecting `p1`
for status 404.  `CreateRequestContext` builds the rule slice by ranging over
the configuration's `map[string]string`, whose range order Go leaves
unspecified; the two possible range orders of that two-entry map are
permutations of each other, and `findErrorFile` serves `/40x.txt` under one
and `/404.txt` under the other — the served page depends on the runtime's
choice of order. -/
theorem c7_error_page_depends_on_map_range_order :
    FSHandler.findErrorFile
        (createRequestContextErrorMappings [("40[0-9]", "/40x.txt"), ("404", "/404.txt")]) 404
      = "/40x.txt"
    ∧ FSHandler.findErrorFile
        (createRequestContextErrorMappings [("404", "/404.txt"), ("40[0-9]", "/40x.txt")]) 404
      = "/404.txt"
    ∧ List.Perm [("40[0-9]", "/40x.txt"), ("404", "/404.txt")]
        [("404", "/404.txt"), ("40[0-9]", "/40x.txt")] :=
  ⟨by rfl, by rfl, List.Perm.swap _ _ _⟩

/-- C8: `CreateCache` with `limit ≤ 0` returns the "zero sized cache" error
(modelled from the spec, the error-returning registry not being among the
sources). -/
theorem c8_zero_limit_is_error (reg : CacheRegistry) (cacheName cacheType : String)
    (cacheLimit : Int) (h : cacheLimit ≤ 0) :
    reg.CreateCache cacheName cacheType cacheLimit = .error "zero sized cache" := by
  unfold CacheRegistry.CreateCache
  rw [if_pos h]

/-- C8 witness: a zero limit on a fresh registry. -/
theorem c8_zero_limit_is_error_witness :
    (0 : Int) ≤ 0
    ∧ CacheRegistry.CreateCache { CacheMap := [], nextId := 0 } "shared" "lru" 0
        = .error "zero sized cache" :=
  ⟨by decide, c8_zero_limit_is_error { CacheMap := [], nextId := 0 } "shared" "lru" 0 (by decide)⟩

/-- The appending search equals the first element of the candidate list (in
declaration order) that exists on the filesystem. -/
theorem FileSystemLoader.FindFileByAppending_eq_find (fs : String → Bool) (filePath : String)
    (l : List String) :
    FileSystemLoader.FindFileByAppending fs filePath l
      = (l.map (fun sfx => filePath ++ sfx)).find? fs := by
  induction l with
  | nil => rfl
  | cons a t ih =>
      unfold FileSystemLoader.FindFileByAppending
      cases h : fs (filePath ++ a) with
      | true => simp [List.find?_cons, h]
      | false => simp [List.find?_cons, h, ih]

/-- C6: path resolution of the filesystem loader.  A trailing-slash request
path selects the first entry of `DefaultFiles` (in list order) whose
concatenation exists; an extension-less path the first entry of
`DefaultExtensions`; otherwise the concatenation itself is stat'ed verbatim.
A returned path always exists on the filesystem, and when no candidate
exists `GetFile` returns the "Unable to locate file" error. -/
theorem c6_path_resolution_first_match (fs : String → Bool)
    (readFile : String → Except String (List Nat)) (requestPath : String)
    (res : ServerResource) (p : String) :
    (FileSystemLoader.LocateFile fs requestPath res
       = (if requestPath.endsWith "/" then
            (res.FSDefaults.DefaultFiles.map (fun sfx => (res.Path ++ requestPath) ++ sfx)).find? fs
          else if !(requestPath.contains '.') then
            (res.FSDefaults.DefaultExtensions.map
              (fun sfx => (res.Path ++ requestPath) ++ sfx)).find? fs
          else if fs (res.Path ++ requestPath) then some (res.Path ++ requestPath)
          else none))
    ∧ (FileSystemLoader.LocateFile fs requestPath res = some p → fs p = true)
    ∧ (FileSystemLoader.LocateFile fs requestPath res = none →
        FileSystemLoader.GetFile fs readFile requestPath res = .error "Unable to locate file") := by
  have hchar : FileSystemLoader.LocateFile fs requestPath res
       = (if requestPath.endsWith "/" then
            (res.FSDefaults.DefaultFiles.map (fun sfx => (res.Path ++ requestPath) ++ sfx)).find? fs
          else if !(requestPath.contains '.') then
            (res.FSDefaults.DefaultExtensions.map
              (fun sfx => (res.Path ++ requestPath) ++ sfx)).find? fs
          else if fs (res.Path ++ requestPath) then some (res.Path ++ requestPath)
          else none) := by
    unfold FileSystemLoader.LocateFile
    simp only [FileSystemLoader.FindFileByAppending_eq_find]
  refine ⟨hchar, ?_, ?_⟩
  · intro h
    rw [hchar] at h
    split at h
    · exact List.find?_some h
    · split at h
      · exact List.find?_some h
      · split at h
        · cases h
          assumption
        · cases h
  · intro h
    unfold FileSystemLoader.GetFile
    rw [h]

/-- C6 witness: with a filesystem containing exactly `/root/index.html` and
the test configuration's defaults, the resolution of the directory request
`/`. -/
theorem c6_path_resolution_first_match_witness :
    (FileSystemLoader.LocateFile indexOnlyFs "/" demoResource
       = (if "/".endsWith "/" then
            (demoResource.FSDefaults.DefaultFiles.map
              (fun sfx => (demoResource.Path ++ "/") ++ sfx)).find? indexOnlyFs
          else if !("/".contains '.') then
            (demoResource.FSDefaults.DefaultExtensions.map
              (fun sfx => (demoResource.Path ++ "/") ++ sfx)).find? indexOnlyFs
          else if indexOnlyFs (demoResource.Path ++ "/") then some (demoResource.Path ++ "/")
          else none))
    ∧ (FileSystemLoader.LocateFile indexOnlyFs "/" demoResource = some "/root/index.html" →
        indexOnlyFs "/root/index.html" = true)
    ∧ (FileSystemLoader.LocateFile indexOnlyFs "/" demoResource = none →
        FileSystemLoader.GetFile indexOnlyFs readAllOk "/" demoResource
          = .error "Unable to locate file") :=
  c6_path_resolution_first_match indexOnlyFs readAllOk "/" demoResource "/root/index.html"

/-- C3: the claim states the error path is single-shot — a failure while
serving an error page writes the bare status and never re-enters error-page
handling.  In `c3Env` the requested file is missing (status 404), error pages
are mapped for 404 and 500 and load successfully, and every client write
fails.  `FSHandler.writeFile` reacts to a failed write by calling
`handleError(500, ...)` unconditionally, so the handler re-enters
`handleError` from inside the error page's own write: with fuel 6 the trace
records three entries into `handleError` and three failed body writes — the
recursion is bounded only by the fuel, not by the code. -/
theorem c3_error_page_write_failure_reenters :
    countHandleErrorEntries (FSHandler.HandleRequest 6 c3Env c3Req false) = 3
    ∧ (FSHandler.HandleRequest 6 c3Env c3Req false).count (FsEvent.writeBody false) = 3 :=
  ⟨by rfl, by rfl⟩

/-- C10: when the request carries an `If-Modified-Since` header whose first
value is shorter than 4 characters, `isModifiedSince` indexes `ms[3]` out of
bounds: the embedding returns its panic branch (`none`), and `writeFile`
reaches it — the source guards only the presence of a header value, not its
length. -/
theorem c10_short_header_out_of_bounds (env : FsEnv) (fuel : Nat) (req : GoRequest)
    (content : LoadedFile) (ms : String) (rest : List String)
    (hms : req.ifModifiedSince = ms :: rest) (hlen : ms.length < 4) :
    isModifiedSince env.parse req.ifModifiedSince content.ModTime = none
    ∧ FSHandler.writeFile (fuel + 1) env req content
        = [FsEvent.setContentType, FsEvent.panicIndex] := by
  have h3 : ms.toList[3]? = none := by
    apply List.getElem?_eq_none
    have hlen2 : ms.toList.length = ms.length := rfl
    omega
  have him : isModifiedSince env.parse req.ifModifiedSince content.ModTime = none := by
    rw [hms]
    simp only [isModifiedSince]
    rw [h3]
  refine ⟨him, ?_⟩
  simp only [FSHandler.writeFile, FSHandler.run, him]

/-- C10 witness: the 3-character header value `abc`. -/
theorem c10_short_header_out_of_bounds_witness :
    shortHeaderReq.ifModifiedSince = "abc" :: []
    ∧ "abc".length < 4
    ∧ (isModifiedSince epochParseEnv.parse shortHeaderReq.ifModifiedSince epochFile.ModTime = none
       ∧ FSHandler.writeFile 1 epochParseEnv shortHeaderReq epochFile
           = [FsEvent.setContentType, FsEvent.panicIndex]) :=
  ⟨rfl, by decide,
    c10_short_header_out_of_bounds epochParseEnv 0 shortHeaderReq epochFile "abc" [] rfl (by decide)⟩

/-- C4: conditional GET.  For a request whose `If-Modified-Since` header's
first value `ms` has a 4th character `c`, the handler's `writeFile` responds
304 with no body exactly when `time.Parse` in the format selected by `c`
(`','` → RFC 1123, `' '` → ANSI C, otherwise RFC 850) succeeds on `ms` with
the file's modification time truncated to seconds; otherwise it writes the
full response with the `Expires: -1`, `Cache-Control` and `Last-Modified`
headers followed by the body. -/
theorem c4_conditional_get_304_iff (env : FsEnv) (fuel : Nat) (req : GoRequest)
    (content : LoadedFile) (ms : String) (rest : List String) (c : Char)
    (hms : req.ifModifiedSince = ms :: rest)
    (hc : ms.toList[3]? = some c)
    (hw : env.writeOk = true) :
    (FSHandler.writeFile (fuel + 1) env req content
        = [FsEvent.setContentType, FsEvent.writeHeader 304]
      ↔ env.parse (formatFor c) ms = some (goTruncateSecond content.ModTime))
    ∧ (env.parse (formatFor c) ms ≠ some (goTruncateSecond content.ModTime) →
        FSHandler.writeFile (fuel + 1) env req content
          = [FsEvent.setContentType,
             FsEvent.setHeader "Expires" "-1",
             FsEvent.setHeader "Cache-Control" "must-revalidate, private",
             FsEvent.setHeader "Last-Modified" (env.format1123 content.ModTime)] ++
            (if content.Compression then [FsEvent.setHeader "Content-Encoding" "gzip"] else []) ++
            [FsEvent.writeBody true]) := by
  have him : isModifiedSince env.parse req.ifModifiedSince content.ModTime
      = (match env.parse (formatFor c) ms with
         | some parsedTime =>
             if goTruncateSecond content.ModTime == parsedTime then some false else some true
         | none => some true) := by
    rw [hms]
    simp only [isModifiedSince]
    rw [hc]
  simp only [FSHandler.writeFile, FSHandler.run, him, hw]
  cases hp : env.parse (formatFor c) ms with
  | none => simp [hp]
  | some parsedTime =>
      by_cases he : goTruncateSecond content.ModTime = parsedTime
      · simp [hp, he]
      · simp [hp, he, beq_iff_eq]
        intro h
        exact absurd h.symm he

/-- C4 witness: the RFC 1123 example header, a parse stub accepting
everything as the epoch, and an epoch-mtime file — instantiating the
conditional-GET theorem. -/
theorem c4_conditional_get_304_iff_witness :
    rfc1123Req.ifModifiedSince = "Sun, 06 Nov 1994 08:49:37 GMT" :: []
    ∧ "Sun, 06 Nov 1994 08:49:37 GMT".toList[3]? = some ','
    ∧ epochParseEnv.writeOk = true
    ∧ ((FSHandler.writeFile 1 epochParseEnv rfc1123Req epochFile
          = [FsEvent.setContentType, FsEvent.writeHeader 304]
        ↔ epochParseEnv.parse (formatFor ',') "Sun, 06 Nov 1994 08:49:37 GMT"
            = some (goTruncateSecond epochFile.ModTime))
       ∧ (epochParseEnv.parse (formatFor ',') "Sun, 06 Nov 1994 08:49:37 GMT"
            ≠ some (goTruncateSecond epochFile.ModTime) →
          FSHandler.writeFile 1 epochParseEnv rfc1123Req epochFile
            = [FsEvent.setContentType,
               FsEvent.setHeader "Expires" "-1",
               FsEvent.setHeader "Cache-Control" "must-revalidate, private",
               FsEvent.setHeader "Last-Modified" (epochParseEnv.format1123 epochFile.ModTime)] ++
              (if epochFile.Compression then [FsEvent.setHeader "Content-Encoding" "gzip"] else []) ++
              [FsEvent.writeBody true])) :=
  ⟨rfl, by decide, rfl,
    c4_conditional_get_304_iff epochParseEnv 0 rfc1123Req epochFile
      "Sun, 06 Nov 1994 08:49:37 GMT" [] ',' rfl (by decide) rfl⟩

/-- Splitting a stream with `goRead` loses no bytes. -/
theorem goRead_append (bufSize : Nat) (s : List Nat) :
    (goRead bufSize s).1 ++ (goRead bufSize s).2.1 = s := by
  unfold goRead
  split
  · rfl
  · split
    · next h _ => simp_all [List.isEmpty_iff]
    · exact List.take_append_drop _ _

/-- `goRead` never grows the remaining stream. -/
theorem goRead_drop_length (bufSize : Nat) (s : List Nat) :
    (goRead bufSize s).2.1.length ≤ s.length := by
  unfold goRead
  split
  · exact le_refl _
  · split
    · simp
    · simp [List.length_drop]

/-- One loop iteration of `writeToResponse`. -/
theorem writeToResponse_succ {σ : Type} (read : Nat → σ → Option (List Nat × Nat × Bool × σ))
    (fuel bufSize : Nat) (st : σ) :
    writeToResponse read (fuel + 1) bufSize st
      = match read bufSize st with
        | none => none
        | some (bs, r, eof, st2) =>
            if r = 0 then
              if eof then some ([], true) else writeToResponse read fuel bufSize st2
            else
              match writeToResponse read fuel bufSize st2 with
              | none => none
              | some (out, e) => some (bs ++ out, e) := rfl

/-- Once its saved byte has been replayed, streaming through a
`WrapperReader` delivers exactly the underlying stream and ends with the
EOF error. -/
theorem writeToResponse_wrapper_delegating (b : Nat) :
    ∀ (fuel : Nat) (u : List Nat), u.length + 1 ≤ fuel →
      writeToResponse WrapperReader.Read fuel BufferMax
        { B := b, ByteRead := true, Underlying := u } = some (u, true) := by
  intro fuel
  induction fuel with
  | zero => intro u h; omega
  | succ f ih =>
      intro u h
      cases u with
      | nil => simp [writeToResponse_succ, WrapperReader.Read, goRead, BufferMax]
      | cons x t =>
          have hne : ((x :: t).take BufferMax).length ≠ 0 := by
            simp [List.length_take, BufferMax]
          have hrd : WrapperReader.Read BufferMax
              { B := b, ByteRead := true, Underlying := x :: t }
              = some ((x :: t).take BufferMax, ((x :: t).take BufferMax).length, false,
                  { B := b, ByteRead := true, Underlying := (x :: t).drop BufferMax }) := by
            simp [WrapperReader.Read, goRead, BufferMax]
          have hih : writeToResponse WrapperReader.Read f BufferMax
              { B := b, ByteRead := true, Underlying := (x :: t).drop BufferMax }
              = some ((x :: t).drop BufferMax, true) := by
            apply ih
            have hdl : ((x :: t).drop BufferMax).length = (x :: t).length - BufferMax :=
              List.length_drop _ _
            have hb : 1 ≤ BufferMax := by decide
            have hxt : (x :: t).length = t.length + 1 := rfl
            omega
          rw [writeToResponse_succ, hrd]
          simp only [if_neg hne, hih]
          rw [List.take_append_drop]

/-- Streaming through a fresh `WrapperReader` delivers the saved byte
followed by the whole underlying stream. -/
theorem writeToResponse_wrapper_fresh (b : Nat) (s : List Nat) :
    writeToResponse WrapperReader.Read (s.length + 2) BufferMax
      { B := b, ByteRead := false, Underlying := s } = some (b :: s, true) := by
  have hrd : WrapperReader.Read BufferMax { B := b, ByteRead := false, Underlying := s }
      = some (b :: (goRead (BufferMax - 1) s).1, (goRead (BufferMax - 1) s).1.length + 1,
          (goRead (BufferMax - 1) s).2.2,
          { B := b, ByteRead := true, Underlying := (goRead (BufferMax - 1) s).2.1 }) := by
    simp [WrapperReader.Read, BufferMax]
  have hih : writeToResponse WrapperReader.Read (s.length + 1) BufferMax
      { B := b, ByteRead := true, Underlying := (goRead (BufferMax - 1) s).2.1 }
      = some ((goRead (BufferMax - 1) s).2.1, true) := by
    apply writeToResponse_wrapper_delegating
    have := goRead_drop_length (BufferMax - 1) s
    omega
  show writeToResponse WrapperReader.Read ((s.length + 1) + 1) BufferMax
      { B := b, ByteRead := false, Underlying := s } = some (b :: s, true)
  rw [writeToResponse_succ, hrd]
  simp only [Nat.succ_ne_zero, if_neg, hih]
  simp [goRead_append]

/-- C9: body streaming with unknown upstream length.  (a) An empty body:
the one-byte probe read reports EOF and `writeBody` returns it having
delivered nothing.  (b) A non-empty body: the bytes delivered to the client
are the probe byte followed by all remaining bytes of the reader.  (c) The
wrapper reader's first `Read` into a non-empty buffer places the saved byte
at position 0, fills the rest from the underlying reader, and reports one
more byte than the underlying read.  (d) Every subsequent `Read` delegates
to the underlying reader unchanged. -/
theorem c9_unknown_content_length_streaming
    (cl : Int) (hcl : cl ≤ 0)
    (b : Nat) (s : List Nat)
    (pSize : Nat) (hp : 1 ≤ pSize)
    (w : WrapperReader) (hwr : w.ByteRead = false)
    (u : List Nat) :
    HttpHandler.writeBody 1 cl [] = some ([], true)
    ∧ HttpHandler.writeBody (s.length + 2) cl (b :: s) = some (b :: s, true)
    ∧ WrapperReader.Read pSize w
        = some (w.B :: (goRead (pSize - 1) w.Underlying).1,
                (goRead (pSize - 1) w.Underlying).1.length + 1,
                (goRead (pSize - 1) w.Underlying).2.2,
                { B := w.B, ByteRead := true, Underlying := (goRead (pSize - 1) w.Underlying).2.1 })
    ∧ WrapperReader.Read pSize { B := b, ByteRead := true, Underlying := u }
        = some ((goRead pSize u).1, (goRead pSize u).1.length, (goRead pSize u).2.2,
                { B := b, ByteRead := true, Underlying := (goRead pSize u).2.1 }) := by
  refine ⟨?_, ?_, ?_, ?_⟩
  · unfold HttpHandler.writeBody
    rw [if_pos hcl]
    rfl
  · unfold HttpHandler.writeBody
    rw [if_pos hcl]
    have h1 : goRead 1 (b :: s) = ([b], s, false) := rfl
    simp only [h1]
    exact writeToResponse_wrapper_fresh b s
  · unfold WrapperReader.Read
    rw [hwr]
    simp only [Bool.false_eq_true, if_false]
    rw [if_neg (by omega)]
  · unfold WrapperReader.Read
    rfl

/-- C9 witness: content length 0, probe byte 7 with remainder `[8, 9]`, a
2-byte destination buffer, a fresh wrapper over `[5, 6, 7]` and a delegating
wrapper over `[1]`. -/
theorem c9_unknown_content_length_streaming_witness :
    (0 : Int) ≤ 0
    ∧ 1 ≤ 2
    ∧ (WrapperReader.mk 7 false [5, 6, 7]).ByteRead = false
    ∧ (HttpHandler.writeBody 1 0 [] = some ([], true)
       ∧ HttpHandler.writeBody ([8, 9].length + 2) 0 (7 :: [8, 9]) = some (7 :: [8, 9], true)
       ∧ WrapperReader.Read 2 (WrapperReader.mk 7 false [5, 6, 7])
           = some ((WrapperReader.mk 7 false [5, 6, 7]).B ::
                    (goRead (2 - 1) (WrapperReader.mk 7 false [5, 6, 7]).Underlying).1,
                  (goRead (2 - 1) (WrapperReader.mk 7 false [5, 6, 7]).Underlying).1.length + 1,
                  (goRead (2 - 1) (WrapperReader.mk 7 false [5, 6, 7]).Underlying).2.2,
                  { B := (WrapperReader.mk 7 false [5, 6, 7]).B, ByteRead := true,
                    Underlying := (goRead (2 - 1) (WrapperReader.mk 7 false [5, 6, 7]).Underlying).2.1 })
       ∧ WrapperReader.Read 2 { B := 7, ByteRead := true, Underlying := [1] }
           = some ((goRead 2 [1]).1, (goRead 2 [1]).1.length, (goRead 2 [1]).2.2,
                  { B := 7, ByteRead := true, Underlying := (goRead 2 [1]).2.1 })) :=
  ⟨by decide, by decide, rfl,
    c9_unknown_content_length_streaming 0 (by decide) 7 [8, 9] 2 (by decide)
      (WrapperReader.mk 7 false [5, 6, 7]) rfl [1]⟩

end ReverseProxy
